import Mathlib

/-!
# Verification of the DuckyCoder v7 orchestration core

Shallow embedding of the pipeline orchestration, merge/deduplication,
similarity scoring, confidence aggregation and mode dispatch logic of
`duckycoder_v7` (files `duckycoder.py`, `analyzers/ai_analyzer.py`,
`core/mode_manager.py`), together with theorems settling the frozen
claims about them.

Numeric values (Python floats) are modelled as rationals `ℚ`; Python
dictionaries keyed by strings as association lists; a Python function
that may raise as a Lean function into `Except String`.
-/

namespace DuckyCoder

/-! ## Similarity Scorer (`analyzers/ai_analyzer.py`)

`_tokenize_code` applies four `re.sub` passes (strip `#...` line
comments, `//...` line comments, `/*...*/` block comments, and
shortest same-line `["'].*?["']` quoted spans), lower-cases, and takes
the maximal word-character runs (`\b\w+\b`). We model each regex pass
as a left-to-right scan with the same semantics. -/

/-- Apostrophe character, written via its code point. -/
def squote : Char := Char.ofNat 39

/-- Python word character (`\w`) on the ASCII fragment: letter, digit or underscore. -/
def isWordChar (c : Char) : Bool := c.isAlphanum || c = '_'

/-- Python whitespace (`\s`) on the ASCII fragment. -/
def isPySpace (c : Char) : Bool :=
  c = ' ' || c = '\t' || c = '\n' || c = '\r' || c = Char.ofNat 11 || c = Char.ofNat 12

/-- Drop characters up to (but excluding) the next newline: the tail of a
line comment removed by `re.sub(r'#.*$', ..., flags=MULTILINE)`. -/
def dropToNl : List Char → List Char
  | [] => []
  | c :: cs => if c = '\n' then c :: cs else dropToNl cs

/-- `re.sub(r'#.*$', '', content, flags=re.MULTILINE)`: at each `#`, drop
the rest of the line.  The scan consumes at least one character per
step, so `fuel = length` always suffices; the fuel only makes the
recursion structural. -/
def stripHashCommentsF : ℕ → List Char → List Char
  | 0, l => l
  | _ + 1, [] => []
  | fuel + 1, c :: cs =>
    if c = '#' then stripHashCommentsF fuel (dropToNl cs)
    else c :: stripHashCommentsF fuel cs

def stripHashComments (l : List Char) : List Char := stripHashCommentsF l.length l

/-- `re.sub(r'//.*$', '', content, flags=re.MULTILINE)`: at each `//`,
drop the rest of the line. -/
def stripSlashCommentsF : ℕ → List Char → List Char
  | 0, l => l
  | _ + 1, [] => []
  | _ + 1, [c] => [c]
  | fuel + 1, c₁ :: c₂ :: cs =>
    if c₁ = '/' ∧ c₂ = '/' then stripSlashCommentsF fuel (dropToNl cs)
    else c₁ :: stripSlashCommentsF fuel (c₂ :: cs)

def stripSlashComments (l : List Char) : List Char := stripSlashCommentsF l.length l

/-- Position just after the next `*/`, if any. -/
def afterBlockClose : List Char → Option (List Char)
  | [] => none
  | [_] => none
  | c₁ :: c₂ :: cs =>
    if c₁ = '*' ∧ c₂ = '/' then some cs else afterBlockClose (c₂ :: cs)

/-- `re.sub(r'/\*.*?\*/', '', content, flags=re.DOTALL)`: each `/*` is
paired with the first following `*/` (non-greedy) and the span removed;
a `/*` with no later `*/` matches nothing (and then no later span can
match either, since no `*/` remains). -/
def stripBlockCommentsF : ℕ → List Char → List Char
  | 0, l => l
  | _ + 1, [] => []
  | _ + 1, [c] => [c]
  | fuel + 1, c₁ :: c₂ :: cs =>
    if c₁ = '/' ∧ c₂ = '*' then
      match afterBlockClose cs with
      | some rest => stripBlockCommentsF fuel rest
      | none => c₁ :: c₂ :: cs
    else c₁ :: stripBlockCommentsF fuel (c₂ :: cs)

def stripBlockComments (l : List Char) : List Char := stripBlockCommentsF l.length l

/-- Position just after the next quote character on the current line
(`.` in the pattern does not cross a newline), if any. -/
def afterQuoteSameLine : List Char → Option (List Char)
  | [] => none
  | c :: cs =>
    if c = '"' ∨ c = squote then some cs
    else if c = '\n' then none
    else afterQuoteSameLine cs

/-- `re.sub(r'["\'].*?["\']', '', content)`: at each quote character with
another quote later on the same line, remove through the nearest such
closing quote (the two quote characters need not match); a quote with no
same-line partner is kept and scanning resumes at the next character. -/
def stripQuotedSpansF : ℕ → List Char → List Char
  | 0, l => l
  | _ + 1, [] => []
  | fuel + 1, c :: cs =>
    if c = '"' ∨ c = squote then
      match afterQuoteSameLine cs with
      | some rest => stripQuotedSpansF fuel rest
      | none => c :: stripQuotedSpansF fuel cs
    else c :: stripQuotedSpansF fuel cs

def stripQuotedSpans (l : List Char) : List Char := stripQuotedSpansF l.length l

/-- Maximal runs of word characters (`re.findall(r'\b\w+\b', s)`). -/
def wordTokensF : ℕ → List Char → List (List Char)
  | 0, _ => []
  | _ + 1, [] => []
  | fuel + 1, c :: cs =>
    if isWordChar c then
      (c :: cs.takeWhile isWordChar) :: wordTokensF fuel (cs.dropWhile isWordChar)
    else wordTokensF fuel cs

def wordTokens (l : List Char) : List (List Char) := wordTokensF l.length l

/-- `AIAnalyzer._tokenize_code`: strip `#` comments, `//` comments,
block comments and quoted spans in that order, lower-case, and return
the word tokens. -/
def tokenizeCode (content : String) : List String :=
  (wordTokens
    (((stripQuotedSpans
        (stripBlockComments
          (stripSlashComments
            (stripHashComments content.data)))).map Char.toLower))).map
    (fun l => String.mk l)

/-- `AIAnalyzer._calculate_structural_similarity`: Jaccard similarity of
the two token sets; `0.0` if either token list is empty. -/
def calcStructuralSimilarity (tokens1 tokens2 : List String) : ℚ :=
  if tokens1 = [] ∨ tokens2 = [] then 0
  else
    let s1 := tokens1.toFinset
    let s2 := tokens2.toFinset
    let inter := (s1 ∩ s2).card
    let union := (s1 ∪ s2).card
    if 0 < union then (inter : ℚ) / (union : ℚ) else 0

/-- Match `\s+(\w+)` immediately after a keyword occurrence: at least one
whitespace character, then a maximal nonempty word-character run (the
captured group); returns the capture and the position after the match. -/
def matchSpacesName (l : List Char) : Option (String × List Char) :=
  let ws := l.takeWhile isPySpace
  if ws = [] then none
  else
    let rest := l.dropWhile isPySpace
    let name := rest.takeWhile isWordChar
    if name = [] then none
    else some (String.mk name, rest.dropWhile isWordChar)

/-- `re.findall(kw + r'\\s+(\\w+)', content)` for a literal keyword `kw`
(as used with `def` and `function`): scan left to right; at each
occurrence of `kw` followed by whitespace and a word, capture the word
and resume after the match; otherwise advance one character.  Every step
consumes at least one character, so `fuel = length` suffices. -/
def findKwNamesF (kw : List Char) : ℕ → List Char → List String
  | 0, _ => []
  | _ + 1, [] => []
  | fuel + 1, c :: cs =>
    if kw.isPrefixOf (c :: cs) then
      match matchSpacesName ((c :: cs).drop kw.length) with
      | some (name, rest) => name :: findKwNamesF kw fuel rest
      | none => findKwNamesF kw fuel cs
    else findKwNamesF kw fuel cs

def findKwNames (kw : List Char) (l : List Char) : List String := findKwNamesF kw l.length l

/-- Function/definition names extracted by `_calculate_semantic_similarity`:
`re.findall(r'def\s+(\w+)', content) + re.findall(r'function\s+(\w+)', content)`. -/
def extractFuncNames (content : String) : List String :=
  findKwNames "def".data content.data ++ findKwNames "function".data content.data

/-- `AIAnalyzer._calculate_semantic_similarity`: overlap of extracted
function names over the larger name-list length; `0.5` when either side
has no names. -/
def calcSemanticSimilarity (content1 content2 : String) : ℚ :=
  let funcs1 := extractFuncNames content1
  let funcs2 := extractFuncNames content2
  if funcs1 ≠ [] ∧ funcs2 ≠ [] then
    ((funcs1.toFinset ∩ funcs2.toFinset).card : ℚ) / (max funcs1.length funcs2.length : ℚ)
  else (1 : ℚ) / 2

/-! ### Sequence similarity (`difflib.SequenceMatcher(None, t1, t2).ratio()`)

The standard-library matcher is external to the repository; it is
modelled from its documented behaviour: Ratcliff–Obershelp matching where
`find_longest_match` returns, of all maximal matching blocks, the one
starting earliest in `a` and then earliest in `b`, blocks are found
recursively left and right of it, and `ratio = 2*M/(len a + len b)` with
`M` the total matched size (`1.0` when both sequences are empty).  The
`autojunk` heuristic, which only affects sequences of 200 or more
elements, is not modelled. -/

/-- Length of the longest common prefix of two token lists. -/
def commonPrefixLen : List String → List String → ℕ
  | a :: as, b :: bs => if a = b then commonPrefixLen as bs + 1 else 0
  | _, _ => 0

/-- All candidate start pairs `(i, j)` in lexicographic order. -/
def matchCandidates (la lb : ℕ) : List (ℕ × ℕ) :=
  (List.range la).flatMap (fun i => (List.range lb).map (fun j => (i, j)))

/-- One step of the longest-match scan: replace the best block found so
far only on a strictly longer match, so the first maximal block in
candidate order wins. -/
def flmStep (a b : List String) (best : ℕ × ℕ × ℕ) (ij : ℕ × ℕ) : ℕ × ℕ × ℕ :=
  let k := commonPrefixLen (a.drop ij.1) (b.drop ij.2)
  if best.2.2 < k then (ij.1, ij.2, k) else best

/-- `SequenceMatcher.find_longest_match` over whole sequences: the
maximal matching block starting earliest in `a`, then earliest in `b`;
`(0, 0, 0)` when there is no nonempty match. -/
def findLongestMatch (a b : List String) : ℕ × ℕ × ℕ :=
  (matchCandidates a.length b.length).foldl (flmStep a b) (0, 0, 0)

/-- Total matched size over all matching blocks (the recursion of
`get_matching_blocks`); `fuel` bounds the recursion depth and
`a.length + b.length` always suffices. -/
def matchTotal : ℕ → List String → List String → ℕ
  | 0, _, _ => 0
  | fuel + 1, a, b =>
    let m := findLongestMatch a b
    if m.2.2 = 0 then 0
    else
      matchTotal fuel (a.take m.1) (b.take m.2.1) + m.2.2 +
        matchTotal fuel (a.drop (m.1 + m.2.2)) (b.drop (m.2.1 + m.2.2))

/-- `difflib.SequenceMatcher(None, a, b).ratio()` (modelled, see above). -/
def sequenceMatcherRatio (a b : List String) : ℚ :=
  if a.length + b.length = 0 then 1
  else 2 * (matchTotal (a.length + b.length) a b : ℚ) / ((a.length + b.length : ℕ) : ℚ)

/-- `AIAnalyzer._calculate_syntactic_similarity`: `0.0` if either token
list is empty, else the sequence-matcher ratio of the token sequences. -/
def calcSyntacticSimilarity (tokens1 tokens2 : List String) : ℚ :=
  if tokens1 = [] ∨ tokens2 = [] then 0
  else sequenceMatcherRatio tokens1 tokens2

/-- `min(1.0, max(0.0, x))`, written with `if` so that it evaluates by
kernel reduction. -/
def clamp01 (x : ℚ) : ℚ :=
  if x < 0 then 0 else if 1 < x then 1 else x

theorem clamp01_eq_min_max (x : ℚ) : clamp01 x = min 1 (max 0 x) := by
  unfold clamp01
  rcases lt_trichotomy x 0 with h | h | h
  · rw [if_pos h, max_eq_left h.le, min_eq_right zero_le_one]
  · subst h
    simp
  · rw [if_neg (not_lt.mpr h.le), max_eq_right h.le]
    rcases le_or_lt x 1 with h1 | h1
    · rw [if_neg (not_lt.mpr h1), min_eq_right h1]
    · rw [if_pos h1, min_eq_left h1.le]

/-- `AIAnalyzer.calculate_similarity`: weighted combination
`0.4*structural + 0.4*semantic + 0.2*syntactic`, clamped to `[0, 1]`. -/
def calculateSimilarity (content1 content2 : String) : ℚ :=
  let tokens1 := tokenizeCode content1
  let tokens2 := tokenizeCode content2
  let structural := calcStructuralSimilarity tokens1 tokens2
  let semantic := calcSemanticSimilarity content1 content2
  let syntactic := calcSyntacticSimilarity tokens1 tokens2
  clamp01 (structural * (4/10) + semantic * (4/10) + syntactic * (2/10))

/-! ## Deduplicating Merger (`duckycoder.py`)

`_resolve_duplicates` walks each per-language list of code items in
input order with a `processed` index set; each unclaimed item scans the
unclaimed items after it and claims those whose similarity exceeds the
0.85 threshold; a claimed cluster is collapsed by
`_merge_similar_items`. -/

/-- `v7_merge_info` attached to a merged item. -/
structure MergeInfo where
  sources : List String
  mergeStrategy : String
  deriving DecidableEq, Repr

/-- One entry of a `combined_code` list: a dict with `source`,
`content`, `metadata` and optional `v7_merge_info` keys. -/
structure Item where
  source : String
  content : String
  metadata : List (String × String) := []
  mergeInfo : Option MergeInfo := none
  deriving DecidableEq, Repr

/-- Python `dict.update`: entries of `m2` override entries of `m1` in
place; keys new in `m2` are appended in order. -/
def dictUpdate (m1 m2 : List (String × String)) : List (String × String) :=
  m1.map (fun kv =>
    match m2.lookup kv.1 with
    | some v => (kv.1, v)
    | none => kv) ++
  m2.filter (fun kv => (m1.lookup kv.1).isNone)

/-- Python `max(all_items, key=lambda x: len(x['content']))`: the first
item whose content length is maximal. -/
def pickLonger (best x : Item) : Item :=
  if best.content.length < x.content.length then x else best

/-- `DuckyCoderV7._merge_similar_items`: representative content from the
longest member (first wins ties), metadata union in member order, and a
`v7_merge_info` listing every member's `source`. -/
def mergeSimilarItems (primary : Item) (similar : List Item) : Item :=
  let allItems := primary :: similar
  let longestItem := similar.foldl pickLonger primary
  let mergedMetadata := allItems.foldl (fun acc it => dictUpdate acc it.metadata) []
  { source := "merged_from_" ++ toString allItems.length ++ "_sources"
    content := longestItem.content
    metadata := mergedMetadata
    mergeInfo := some
      { sources := allItems.map (·.source)
        mergeStrategy := "longest_content_with_metadata_merge" } }

/-- Inner scan of `_resolve_duplicates`: the indexed items after the
current one that are unclaimed and score above the threshold. -/
def claimSimilar (score : String → String → ℚ) (threshold : ℚ) (item : Item)
    (rest : List (ℕ × Item)) (processed : List ℕ) : List (ℕ × Item) :=
  rest.filter (fun p => decide (p.1 ∉ processed) && decide (threshold < score item.content p.2.content))

/-- Outer loop of `_resolve_duplicates` over indexed items, carrying the
`processed` set; emits the merged item when the claim set is nonempty and
the item itself otherwise. -/
def dedupGo (score : String → String → ℚ) (threshold : ℚ) :
    List (ℕ × Item) → List ℕ → List Item
  | [], _ => []
  | (i, item) :: rest, processed =>
    if i ∈ processed then dedupGo score threshold rest processed
    else
      let claimed := claimSimilar score threshold item rest processed
      (if claimed.isEmpty then item else mergeSimilarItems item (claimed.map Prod.snd)) ::
        dedupGo score threshold rest (processed ++ claimed.map Prod.fst ++ [i])

/-- Same traversal as `dedupGo`, returning each primary item together
with the members it claimed (the clusters of the greedy scan). -/
def clustersGo (score : String → String → ℚ) (threshold : ℚ) :
    List (ℕ × Item) → List ℕ → List (Item × List Item)
  | [], _ => []
  | (i, item) :: rest, processed =>
    if i ∈ processed then clustersGo score threshold rest processed
    else
      let claimed := claimSimilar score threshold item rest processed
      (item, claimed.map Prod.snd) ::
        clustersGo score threshold rest (processed ++ claimed.map Prod.fst ++ [i])

/-- `_resolve_duplicates` on one per-language group. -/
def resolveGroup (score : String → String → ℚ) (threshold : ℚ) (codeItems : List Item) :
    List Item :=
  dedupGo score threshold codeItems.enum []

/-- The clusters produced by the greedy claiming scan, each as the list
`primary :: claimed members`. -/
def greedyClusters (score : String → String → ℚ) (threshold : ℚ) (codeItems : List Item) :
    List (List Item) :=
  (clustersGo score threshold codeItems.enum []).map (fun c => c.1 :: c.2)

/-- Collapse one cluster: a singleton cluster passes its record through
unchanged; a larger cluster is merged by `_merge_similar_items`. -/
def renderCluster : List Item → Item
  | [] => { source := "", content := "" }
  | [x] => x
  | p :: s => mergeSimilarItems p s

/-- `DuckyCoderV7._resolve_duplicates`: each language's item list is
deduplicated when it has more than one entry (the `len(code_items) > 1`
guard); the similarity is `calculate_similarity` and the threshold the
literal `0.85`. -/
def resolveDuplicates (combinedCode : List (String × List Item)) :
    List (String × List Item) :=
  combinedCode.map (fun g =>
    (g.1, if 1 < g.2.length then resolveGroup calculateSimilarity (85/100) g.2 else g.2))

/-- Provenance of an item: the recorded merge sources, or the item's own
identity for a pass-through record. -/
def provenanceOf (item : Item) : List String :=
  match item.mergeInfo with
  | some info => info.sources
  | none => [item.source]

/-! ## Mode Dispatcher (`core/mode_manager.py`)

`OperationalModeManager.execute_mode` looks the mode up in the handler
registry, raises `ValueError(f"Unknown mode: ...")` for an unregistered
name (caught by its own `except` clause), short-circuits a disabled mode
with `execution_time=0`, and otherwise runs the handler, converting an
exception into a failed result.  `time.time()` readings are modelled by
a clock `ℕ → ℚ` indexed by call order (`clock 0` at dispatch entry,
`clock 1` at the second reading of the taken path); the `datetime.now()`
timestamp string in the metadata dict is not modelled. -/

/-- Handler result payload (a Python dict). -/
abbrev ModeData := List (String × String)

/-- `ModeContext` dataclass. -/
structure ModeContext where
  inputData : List (String × String) := []
  config : List (String × String) := []
  metadata : List (String × String) := []
  userPreferences : List (String × String) := []

/-- The `metadata` dict of a `ModeResult`: a `status` entry, plus the
`execution_time` entry present on the completed/failed paths. -/
structure ModeMetadata where
  status : String
  executionTime : Option ℚ
  deriving DecidableEq, Repr

/-- `ModeResult` dataclass. -/
structure ModeResult where
  modeName : String
  success : Bool
  data : Option ModeData
  error : Option String
  executionTime : ℚ
  metadata : ModeMetadata
  deriving DecidableEq, Repr

/-- Per-mode configuration dict: the `enabled` flag read by
`mode_config.get('enabled', True)`. -/
structure ModeConfig where
  enabled : Bool := true
  deriving DecidableEq, Repr

/-- The mode manager: `modes_config` from configuration and the
`mode_handlers` registry built in `__init__`.  A handler that may raise
is a function into `Except String`. -/
structure ModeManagerState where
  modesConfig : List (String × ModeConfig)
  modeHandlers : List (String × (ModeContext → Except String ModeData))

/-- `self.modes_config.get(mode_name, {})` followed by
`.get('enabled', True)`: a mode with no configuration entry is enabled. -/
def enabledFor (mgr : ModeManagerState) (modeName : String) : Bool :=
  match mgr.modesConfig.lookup modeName with
  | some c => c.enabled
  | none => true

/-- `OperationalModeManager.execute_mode`. -/
def executeMode (mgr : ModeManagerState) (clock : ℕ → ℚ) (modeName : String)
    (ctx : ModeContext) : ModeResult :=
  let startTime := clock 0
  match mgr.modeHandlers.lookup modeName with
  | none =>
    -- `raise ValueError(f"Unknown mode: {mode_name}")`, caught by the
    -- function's own `except` clause
    let executionTime := clock 1 - startTime
    { modeName := modeName, success := false, data := none
      error := some ("Unknown mode: " ++ modeName)
      executionTime := executionTime
      metadata := { status := "failed", executionTime := some executionTime } }
  | some handler =>
    if !enabledFor mgr modeName then
      { modeName := modeName, success := false, data := none
        error := some ("Mode " ++ modeName ++ " is disabled")
        executionTime := 0
        metadata := { status := "disabled", executionTime := none } }
    else
      match handler ctx with
      | .ok resultData =>
        let executionTime := clock 1 - startTime
        { modeName := modeName, success := true, data := some resultData
          error := none
          executionTime := executionTime
          metadata := { status := "completed", executionTime := some executionTime } }
      | .error e =>
        let executionTime := clock 1 - startTime
        { modeName := modeName, success := false, data := none
          error := some e
          executionTime := executionTime
          metadata := { status := "failed", executionTime := some executionTime } }

/-- `OperationalModeManager.execute_multiple_modes`: one task per mode
gathered in request order.  `execute_mode` catches every handler
exception itself, so the `isinstance(result, Exception)` conversion
branch after `asyncio.gather` is never taken and the call is the
positional map of `execute_mode` over the requested names. -/
def executeMultipleModes (mgr : ModeManagerState) (clock : ℕ → ℚ)
    (modeNames : List String) (ctx : ModeContext) : List ModeResult :=
  modeNames.map (fun n => executeMode mgr clock n ctx)

/-! ## Analysis stage and confidence roll-up (`duckycoder.py`) -/

/-- One value of the `merged_content` dict passed to `analyze_content`:
the decoded content, and the `error` key a failed earlier stage may have
recorded (items with an `error` key are skipped). -/
structure RecordData where
  content : String := ""
  error : Option String := none
  deriving DecidableEq, Repr

/-- Result dict of one analyzer call; only the `confidence` entry is
read by the aggregation (`_calculate_confidence` skips results without
one), the rest of the dict is opaque detail. -/
structure Analysis where
  confidence : Option ℚ := none
  details : List (String × String) := []
  deriving DecidableEq, Repr

/-- `DuckyCoderV7._calculate_confidence`: arithmetic mean of the
`confidence` values present among the analyses, `0.0` when none is. -/
def calculateConfidence (analyses : List Analysis) : ℚ :=
  let scores := analyses.filterMap (·.confidence)
  if scores.isEmpty then 0 else scores.sum / (scores.length : ℚ)

/-- Result dict of one enhancement; only the `confidence` entry is read
by `_calculate_enhancement_confidence`. -/
structure Enhancement where
  confidence : Option ℚ := none
  details : List (String × String) := []
  deriving DecidableEq, Repr

/-- `DuckyCoderV7._calculate_enhancement_confidence`: arithmetic mean of
the `confidence` values present among the enhancements, `0.0` when none
is. -/
def calculateEnhancementConfidence (enhancements : List Enhancement) : ℚ :=
  let scores := enhancements.filterMap (·.confidence)
  if scores.isEmpty then 0 else scores.sum / (scores.length : ℚ)

/-- One entry of `analysis_results`: either the four phase analyses with
the rolled-up `confidence_score`, or the `{"error": str(e)}` dict
recorded when an analyzer raised on this record. -/
inductive AnalysisEntry where
  | ok (syntacticRes logicalRes contextualRes securityRes : Analysis) (confidenceScore : ℚ)
  | err (msg : String)
  deriving DecidableEq, Repr

/-- The `try` body of `analyze_content` for one record: run the four
analyzers in order, propagating the first raised error, and roll up the
confidence of the syntax/logic/context analyses. -/
def analyzeItem (fSyn fLog fCtx fSec : RecordData → Except String Analysis)
    (d : RecordData) : AnalysisEntry :=
  match (do
      let synRes ← fSyn d
      let logRes ← fLog d
      let ctxRes ← fCtx d
      let secRes ← fSec d
      pure (synRes, logRes, ctxRes, secRes) : Except String (Analysis × Analysis × Analysis × Analysis)) with
  | .ok (synRes, logRes, ctxRes, secRes) =>
    .ok synRes logRes ctxRes secRes (calculateConfidence [synRes, logRes, ctxRes])
  | .error e => .err e

/-- `DuckyCoderV7.analyze_content`: per-item isolation — records whose
data carries an `error` key are skipped, every other record gets an
entry, and an analyzer exception is caught per record and recorded as an
error entry. -/
def analyzeContent (fSyn fLog fCtx fSec : RecordData → Except String Analysis)
    (mergedContent : List (String × RecordData)) : List (String × AnalysisEntry) :=
  mergedContent.filterMap (fun kd =>
    if kd.2.error.isSome then none
    else some (kd.1, analyzeItem fSyn fLog fCtx fSec kd.2))

/-! ## Pipeline orchestration (`duckycoder.py`, `run_full_pipeline`)

The nine phases run in sequence inside one `try`; any exception escaping
a phase yields `{"pipeline_status": "failed", "error": str(e), ...}`,
otherwise the compiled results carry `"pipeline_status": "completed"`.
The collaborator stages (ingestion, merge, enhancement, UI, optimizer,
security scan, validation, export) are opaque possibly-failing
functions; the analysis stage is `analyzeContent`, which is total. -/

/-- The collaborator stages of `run_full_pipeline`, with opaque result
types for the stages whose payloads the claims do not inspect. -/
structure OtherStages (α β γ δ ε ζ : Type) where
  processInputs : List String → Except String (List (String × RecordData))
  mergeAndCombine : List (String × RecordData) → Except String (List (String × RecordData))
  enhanceContent : List (String × AnalysisEntry) → Except String α
  generateMockups : α → List (String × AnalysisEntry) → Except String β
  optimizePerformance : α → Except String γ
  analyzeSecurity : γ → Except String δ
  validateResults : List (String × RecordData) → List (String × AnalysisEntry) → α → β → γ →
    δ → Except String ε
  exportResults : γ → List String → Except String ζ

/-- The `final_results` payload compiled on the successful path. -/
structure PipelineResults (α β γ δ ε ζ : Type) where
  processedData : List (String × RecordData)
  mergedContent : List (String × RecordData)
  analysisResults : List (String × AnalysisEntry)
  enhancedContent : α
  uiResults : β
  optimizedContent : γ
  securityResults : δ
  validationResults : ε
  exportedResults : ζ

/-- The dict returned by `run_full_pipeline`: a `pipeline_status`, the
compiled results on success, the error string on failure. -/
structure PipelineOutcome (α β γ δ ε ζ : Type) where
  pipelineStatus : String
  finalResults : Option (PipelineResults α β γ δ ε ζ)
  error : Option String

/-- `DuckyCoderV7.run_full_pipeline`. -/
def runFullPipeline {α β γ δ ε ζ : Type} (stages : OtherStages α β γ δ ε ζ)
    (fSyn fLog fCtx fSec : RecordData → Except String Analysis)
    (inputs : List String) (exportFormats : List String) :
    PipelineOutcome α β γ δ ε ζ :=
  match (do
      let processed ← stages.processInputs inputs
      let merged ← stages.mergeAndCombine processed
      let analysis := analyzeContent fSyn fLog fCtx fSec merged
      let enhanced ← stages.enhanceContent analysis
      let ui ← stages.generateMockups enhanced analysis
      let optimized ← stages.optimizePerformance enhanced
      let security ← stages.analyzeSecurity optimized
      let validation ← stages.validateResults processed analysis enhanced ui optimized security
      let exported ← stages.exportResults optimized exportFormats
      pure (⟨processed, merged, analysis, enhanced, ui, optimized, security, validation,
        exported⟩ : PipelineResults α β γ δ ε ζ) : Except String _) with
  | .ok r => { pipelineStatus := "completed", finalResults := some r, error := none }
  | .error e => { pipelineStatus := "failed", finalResults := none, error := some e }

/-! ## Spec-side restatements of the similarity components (claim C2) -/

/-- The structural signal as the spec words it: Jaccard similarity of
the word-token sets (comments and string literals stripped,
lower-cased), `0` when either token set is empty. -/
def specStructuralSimilarity (a b : String) : ℚ :=
  let s1 := (tokenizeCode a).toFinset
  let s2 := (tokenizeCode b).toFinset
  if s1 = ∅ ∨ s2 = ∅ then 0
  else ((s1 ∩ s2).card : ℚ) / ((s1 ∪ s2).card : ℚ)

/-- The semantic signal as the spec words it: common extracted
function/definition names over the larger name count, defaulting to
`1/2` when identifiers are missing on either side. -/
def specSemanticSimilarity (a b : String) : ℚ :=
  let n1 := extractFuncNames a
  let n2 := extractFuncNames b
  if n1 = [] ∨ n2 = [] then (1 : ℚ) / 2
  else ((n1.toFinset ∩ n2.toFinset).card : ℚ) / (max n1.length n2.length : ℚ)

/-! ## Configuration surface demanded by the spec (claim C8) -/

/-- The tunable similarity/dedup configuration the spec mandates, with
the stated defaults. -/
structure SimilarityConfig where
  duplicationThreshold : ℚ := 85/100
  structuralWeight : ℚ := 4/10
  semanticWeight : ℚ := 4/10
  syntacticWeight : ℚ := 2/10
  deriving DecidableEq, Repr

/-- `_resolve_duplicates` as the code has it, given access to the run
configuration (`self.config`): the threshold and the weights inside
`calculate_similarity` are the literals `0.85` and `0.4/0.4/0.2`; the
configuration argument is never consulted. -/
def resolveDuplicatesCfg (_config : SimilarityConfig)
    (combinedCode : List (String × List Item)) : List (String × List Item) :=
  resolveDuplicates combinedCode

/-- Modelled from the spec: the similarity score as the configurability
sentence demands it, combining the three signals with the configured
weights. -/
def specSimilarityWeighted (config : SimilarityConfig) (content1 content2 : String) : ℚ :=
  let tokens1 := tokenizeCode content1
  let tokens2 := tokenizeCode content2
  clamp01 (calcStructuralSimilarity tokens1 tokens2 * config.structuralWeight +
    calcSemanticSimilarity content1 content2 * config.semanticWeight +
    calcSyntacticSimilarity tokens1 tokens2 * config.syntacticWeight)

/-- Modelled from the spec: the merge as the configurability sentence
demands it, claiming with the configured threshold and weights. -/
def specConfiguredResolve (config : SimilarityConfig)
    (combinedCode : List (String × List Item)) : List (String × List Item) :=
  combinedCode.map (fun g =>
    (g.1, if 1 < g.2.length then
      resolveGroup (specSimilarityWeighted config) config.duplicationThreshold g.2
    else g.2))

/-! ## Concrete records used to instantiate the theorems -/

/-- A small Python record (the spec's own example input). -/
def itFooA : Item := { source := "a.py", content := "def foo(): return 1" }

/-- A near-identical copy of `itFooA` differing only in a trailing
comment. -/
def itFooB : Item := { source := "b.py", content := "def foo(): return 1  # copy" }

/-- A record with no function/definition identifiers. -/
def itTextA : Item := { source := "a.txt", content := "hello world" }

/-- A byte-identical duplicate of `itTextA` under another identity. -/
def itTextB : Item := { source := "b.txt", content := "hello world" }

/-- A record dissimilar to `itTextA`. -/
def itNum : Item := { source := "c.txt", content := "x = 2" }

/-- A trivially succeeding handler used to instantiate dispatcher
theorems. -/
def okHandler : ModeContext → Except String ModeData := fun _ => .ok [("status", "ok")]

/-- A registry with one mode and no configuration entry (enabled by
default). -/
def mgrEnabled : ModeManagerState :=
  { modesConfig := [], modeHandlers := [("merge_only", okHandler)] }

/-- A registry with one mode explicitly disabled in configuration. -/
def mgrDisabled : ModeManagerState :=
  { modesConfig := [("merge_only", { enabled := false })],
    modeHandlers := [("merge_only", okHandler)] }

/-- Identity clock: the `n`-th `time.time()` reading is `n`. -/
def clockLin : ℕ → ℚ := fun n => n

/-- An empty dispatch context. -/
def ctxEmpty : ModeContext := {}

/-- Collaborator stages that always succeed with unit payloads, with a
fixed three-record merge output whose middle record will make the
analyzer raise. -/
def stagesOkUnit : OtherStages Unit Unit Unit Unit Unit Unit :=
  { processInputs := fun _ => Except.ok []
    mergeAndCombine := fun _ => Except.ok
      [("good1", { content := "x = 1" }), ("bad", { content := "oops" }),
        ("good2", { content := "y = 2" })]
    enhanceContent := fun _ => Except.ok ()
    generateMockups := fun _ _ => Except.ok ()
    optimizePerformance := fun _ => Except.ok ()
    analyzeSecurity := fun _ => Except.ok ()
    validateResults := fun _ _ _ _ _ _ => Except.ok ()
    exportResults := fun _ _ => Except.ok () }

/-- An analyzer that raises on the content `"oops"` and succeeds
otherwise. -/
def fSynW : RecordData → Except String Analysis := fun d =>
  if d.content = "oops" then Except.error "boom" else Except.ok { confidence := some (9/10) }

/-- An analyzer that always succeeds. -/
def fOkW : RecordData → Except String Analysis := fun _ =>
  Except.ok { confidence := some (8/10) }

/-! ## Lemmas about the deduplicating merger -/

theorem renderCluster_cons (p : Item) (s : List Item) :
    renderCluster (p :: s) = if s.isEmpty then p else mergeSimilarItems p s := by
  cases s with
  | nil => simp [renderCluster]
  | cons x xs => simp [renderCluster]

theorem dedupGo_eq_clustersGo (score : String → String → ℚ) (threshold : ℚ)
    (l : List (ℕ × Item)) (processed : List ℕ) :
    dedupGo score threshold l processed =
      (clustersGo score threshold l processed).map
        (fun c => if c.2.isEmpty then c.1 else mergeSimilarItems c.1 c.2) := by
  induction l generalizing processed with
  | nil => simp [dedupGo, clustersGo]
  | cons p rest ih =>
    obtain ⟨i, item⟩ := p
    simp only [dedupGo, clustersGo]
    split
    · exact ih processed
    · simp only [List.map_cons]
      congr 1
      · simp only [List.isEmpty_eq_true, List.map_eq_nil_iff]
      · exact ih _

theorem resolveGroup_eq_clusters (score : String → String → ℚ) (threshold : ℚ)
    (codeItems : List Item) :
    resolveGroup score threshold codeItems =
      (greedyClusters score threshold codeItems).map renderCluster := by
  unfold resolveGroup greedyClusters
  rw [dedupGo_eq_clustersGo, List.map_map]
  apply List.map_congr_left
  intro c _
  simp [renderCluster_cons]

theorem greedyClusters_singleton (score : String → String → ℚ) (threshold : ℚ) (x : Item) :
    greedyClusters score threshold [x] = [[x]] := by
  simp [greedyClusters, clustersGo, claimSimilar, List.enum]

/-- A cluster member list is never empty: every cluster is its primary
item consed onto the claimed items. -/
theorem greedyClusters_ne_nil (score : String → String → ℚ) (threshold : ℚ)
    (codeItems : List Item) :
    ∀ c ∈ greedyClusters score threshold codeItems, c ≠ [] := by
  intro c hc
  unfold greedyClusters at hc
  obtain ⟨pc, _, rfl⟩ := List.mem_map.mp hc
  simp

/-- `max(all_items, key=lambda x: len(x['content']))` selects the first
member of maximal content length: it is in the list, no member is
longer, and every earlier member is strictly shorter. -/
theorem foldl_pickLonger_spec (p : Item) (s : List Item) :
    ∃ (i : ℕ) (hi : i < (p :: s).length),
      (p :: s)[i] = s.foldl pickLonger p ∧
      (∀ (j : ℕ) (hj : j < (p :: s).length),
        ((p :: s)[j]).content.length ≤ (s.foldl pickLonger p).content.length) ∧
      (∀ (j : ℕ) (hj : j < (p :: s).length), j < i →
        ((p :: s)[j]).content.length < (s.foldl pickLonger p).content.length) := by
  induction s generalizing p with
  | nil =>
    refine ⟨0, by simp, rfl, ?_, ?_⟩
    · intro j hj
      have hj0 : j = 0 := by simp at hj; omega
      subst hj0
      simp [List.foldl]
    · intro j hj hji
      exact absurd hji (by omega)
  | cons x xs ih =>
    obtain ⟨i', hi', heq, hle, hlt⟩ := ih (pickLonger p x)
    simp only [List.foldl_cons]
    by_cases hpx : p.content.length < x.content.length
    · -- `pickLonger p x = x`: the first candidate is replaced, so the
      -- selected index shifts one to the right of the IH's index
      have hpick : pickLonger p x = x := by simp [pickLonger, hpx]
      rw [hpick] at heq hle hlt hi'
      have hxle : x.content.length ≤ (xs.foldl pickLonger x).content.length := by
        have := hle 0 (by simp)
        simpa using this
      refine ⟨i' + 1, by simpa using hi', ?_, ?_, ?_⟩
      · rw [hpick]
        simpa using heq
      · intro j hj
        rw [hpick]
        cases j with
        | zero => simpa using le_trans (le_of_lt hpx) hxle
        | succ j'' =>
          have := hle j'' (by simpa using hj)
          simpa using this
      · intro j hj hji
        rw [hpick]
        cases j with
        | zero => simpa using lt_of_lt_of_le hpx hxle
        | succ j'' =>
          have := hlt j'' (by simpa using hj) (by omega)
          simpa using this
    · -- `pickLonger p x = p`: the IH already ranges over `p :: xs`; the
      -- skipped element `x` is no longer than `p`
      have hpick : pickLonger p x = p := by simp [pickLonger, hpx]
      rw [hpick] at heq hle hlt hi'
      have hxle : x.content.length ≤ p.content.length := not_lt.mp hpx
      have hple : p.content.length ≤ (xs.foldl pickLonger p).content.length := by
        have := hle 0 (by simp)
        simpa using this
      cases i' with
      | zero =>
        refine ⟨0, by simp, ?_, ?_, ?_⟩
        · rw [hpick]
          simpa using heq
        · intro j hj
          rw [hpick]
          cases j with
          | zero => exact hple
          | succ j'' =>
            cases j'' with
            | zero => exact le_trans hxle hple
            | succ j₃ =>
              have := hle (j₃ + 1) (by simpa using hj)
              simpa using this
        · intro j hj hji
          exact absurd hji (by omega)
      | succ k =>
        have hplt : p.content.length < (xs.foldl pickLonger p).content.length := by
          have := hlt 0 (by simp) (by omega)
          simpa using this
        refine ⟨k + 2, by simpa using hi', ?_, ?_, ?_⟩
        · rw [hpick]
          simpa using heq
        · intro j hj
          rw [hpick]
          cases j with
          | zero => exact hple
          | succ j'' =>
            cases j'' with
            | zero => exact le_trans hxle hple
            | succ j₃ =>
              have := hle (j₃ + 1) (by simpa using hj)
              simpa using this
        · intro j hj hji
          rw [hpick]
          cases j with
          | zero => exact hplt
          | succ j'' =>
            cases j'' with
            | zero => exact lt_of_le_of_lt hxle hplt
            | succ j₃ =>
              have := hlt (j₃ + 1) (by simpa using hj) (by omega)
              simpa using this

/-- What `_merge_similar_items` produces for the cluster
`primary :: similar`: the representative content comes from the first
member of maximal content length, and the recorded `v7_merge_info` lists
every member's identity. -/
theorem mergeSimilarItems_spec (primary : Item) (similar : List Item) :
    (∃ (i : ℕ) (hi : i < (primary :: similar).length),
      (mergeSimilarItems primary similar).content = ((primary :: similar)[i]).content ∧
      (∀ (j : ℕ) (hj : j < (primary :: similar).length),
        ((primary :: similar)[j]).content.length ≤ ((primary :: similar)[i]).content.length) ∧
      (∀ (j : ℕ) (hj : j < (primary :: similar).length), j < i →
        ((primary :: similar)[j]).content.length < ((primary :: similar)[i]).content.length)) ∧
    (mergeSimilarItems primary similar).mergeInfo =
      some { sources := (primary :: similar).map (·.source)
             mergeStrategy := "longest_content_with_metadata_merge" } := by
  constructor
  · obtain ⟨i, hi, heq, hle, hlt⟩ := foldl_pickLonger_spec primary similar
    refine ⟨i, hi, ?_, ?_, ?_⟩
    · rw [heq]
      rfl
    · intro j hj
      rw [heq]
      exact hle j hj
    · intro j hj hji
      rw [heq]
      exact hlt j hj hji
  · rfl

/-- When no later unclaimed item ever exceeds the threshold, the greedy
scan leaves the unprocessed items untouched. -/
theorem dedupGo_of_pairwise_not_similar (score : String → String → ℚ) (threshold : ℚ)
    (l : List (ℕ × Item)) (processed : List ℕ)
    (hnodup : (l.map Prod.fst).Nodup)
    (hpw : l.Pairwise (fun x y => ¬ threshold < score x.2.content y.2.content)) :
    dedupGo score threshold l processed =
      (l.filter (fun x => decide (x.1 ∉ processed))).map Prod.snd := by
  induction l generalizing processed with
  | nil => simp [dedupGo]
  | cons q rest ih =>
    obtain ⟨i, item⟩ := q
    rw [List.pairwise_cons] at hpw
    simp only [List.map_cons, List.nodup_cons] at hnodup
    have hclaim : claimSimilar score threshold item rest processed = [] := by
      apply List.filter_eq_nil_iff.mpr
      intro x hx
      simp only [Bool.and_eq_true, decide_eq_true_eq, not_and, Bool.not_eq_true]
      intro _
      simpa using hpw.1 x hx
    simp only [dedupGo]
    split
    · rename_i hin
      rw [ih _ hnodup.2 hpw.2]
      have hfil : (List.filter (fun x => decide (x.1 ∉ processed)) ((i, item) :: rest)) =
          List.filter (fun x => decide (x.1 ∉ processed)) rest := by
        rw [List.filter_cons_of_neg]
        simpa using hin
      rw [hfil]
    · rename_i hin
      simp only [hclaim, List.isEmpty_nil, if_true, List.map_nil, List.append_nil]
      rw [List.filter_cons_of_pos (by simpa using hin)]
      simp only [List.map_cons]
      congr 1
      rw [ih _ hnodup.2 hpw.2]
      apply congrArg (List.map Prod.snd)
      apply List.filter_congr
      intro x hx
      have hxi : x.1 ≠ i := by
        intro hxe
        exact hnodup.1 (List.mem_map.mpr ⟨x, hx, hxe⟩)
      simp [List.mem_append, hxi]

/-- A group of at most one record is its own cluster rendering. -/
theorem clusters_render_short (score : String → String → ℚ) (threshold : ℚ)
    (items : List Item) (h : items.length ≤ 1) :
    (greedyClusters score threshold items).map renderCluster = items := by
  match items, h with
  | [], _ => simp [greedyClusters, clustersGo, List.enum]
  | [x], _ => rw [greedyClusters_singleton]; simp [renderCluster]

/-- The greedy scan with no similar pair leaves the group unchanged. -/
theorem resolveGroup_of_pairwise_not_similar (score : String → String → ℚ) (threshold : ℚ)
    (items : List Item)
    (hpw : items.Pairwise (fun x y => ¬ threshold < score x.content y.content)) :
    resolveGroup score threshold items = items := by
  unfold resolveGroup
  rw [dedupGo_of_pairwise_not_similar]
  · rw [List.filter_eq_self.mpr (by simp), List.enum_map_snd]
  · rw [List.enum_map_fst]
    exact List.nodup_range _
  · have h2 := List.enum_map_snd items
    rw [← h2] at hpw
    exact (List.pairwise_map.mp hpw).imp (fun h => h)

/-- C1: within each language group the merge processes records in input
order with a claimed set, claiming each later unclaimed record whose
similarity to the current one exceeds the 0.85 threshold
(`resolveDuplicates` is exactly the rendering of the greedy clusters),
and every cluster of size greater than one yields exactly one canonical
record whose representative content is the first cluster member of
maximal text length (ties broken by input order) and whose recorded
provenance lists the identities of all cluster members. -/
theorem claim_C1_dedup_merge (combinedCode : List (String × List Item)) :
    resolveDuplicates combinedCode =
      combinedCode.map (fun g =>
        (g.1, (greedyClusters calculateSimilarity (85/100) g.2).map renderCluster)) ∧
    ∀ g ∈ combinedCode, ∀ cl ∈ greedyClusters calculateSimilarity (85/100) g.2,
      cl ≠ [] ∧
      (1 < cl.length →
        (∃ (i : ℕ) (hi : i < cl.length),
          (renderCluster cl).content = (cl[i]).content ∧
          (∀ (j : ℕ) (hj : j < cl.length),
            (cl[j]).content.length ≤ (cl[i]).content.length) ∧
          (∀ (j : ℕ) (hj : j < cl.length), j < i →
            (cl[j]).content.length < (cl[i]).content.length)) ∧
        (renderCluster cl).mergeInfo =
          some { sources := cl.map (·.source)
                 mergeStrategy := "longest_content_with_metadata_merge" }) := by
  constructor
  · unfold resolveDuplicates
    apply List.map_congr_left
    intro g _
    split
    · rw [resolveGroup_eq_clusters]
    · rename_i hlen
      rw [clusters_render_short _ _ _ (by omega)]
  · intro g _ cl hc
    refine ⟨greedyClusters_ne_nil _ _ _ cl hc, ?_⟩
    intro hlen
    match cl, hlen with
    | p :: x :: xs, _ =>
      have hspec := mergeSimilarItems_spec p (x :: xs)
      exact hspec

/-- Witness for C1 at the spec's example pair: the two near-identical
Python records form one cluster whose canonical record takes the longer
content and records both identities. -/
theorem claim_C1_witness :
    (∃ (i : ℕ) (hi : i < ([itFooA, itFooB] : List Item).length),
      (renderCluster [itFooA, itFooB]).content = (([itFooA, itFooB] : List Item)[i]).content ∧
      (∀ (j : ℕ) (hj : j < ([itFooA, itFooB] : List Item).length),
        (([itFooA, itFooB] : List Item)[j]).content.length ≤
          (([itFooA, itFooB] : List Item)[i]).content.length) ∧
      (∀ (j : ℕ) (hj : j < ([itFooA, itFooB] : List Item).length), j < i →
        (([itFooA, itFooB] : List Item)[j]).content.length <
          (([itFooA, itFooB] : List Item)[i]).content.length)) ∧
    (renderCluster [itFooA, itFooB]).mergeInfo =
      some { sources := ([itFooA, itFooB] : List Item).map (·.source)
             mergeStrategy := "longest_content_with_metadata_merge" } := by
  have h := (claim_C1_dedup_merge [("python", [itFooA, itFooB])]).2
    ("python", [itFooA, itFooB]) (by simp) [itFooA, itFooB] (by with_unfolding_all decide)
  exact h.2 (by decide)

/-- C3: when no pair of records in any group scores above the
duplication threshold, the merge is the identity — one canonical record
per input record, each a pass-through of its source record, whose
provenance is the single-element list of its own identity. -/
theorem claim_C3_dedup_idempotent (combinedCode : List (String × List Item))
    (h : ∀ g ∈ combinedCode,
      g.2.Pairwise (fun x y => ¬ (85/100 : ℚ) < calculateSimilarity x.content y.content)) :
    resolveDuplicates combinedCode = combinedCode ∧
    ∀ g ∈ combinedCode, ∀ it ∈ g.2, it.mergeInfo = none →
      provenanceOf it = [it.source] := by
  constructor
  · unfold resolveDuplicates
    have heach : ∀ g ∈ combinedCode,
        (fun g : String × List Item =>
          (g.1, if 1 < g.2.length then resolveGroup calculateSimilarity (85/100) g.2
            else g.2)) g = g := by
      intro g hg
      simp only
      split
      · rw [resolveGroup_of_pairwise_not_similar _ _ _ (h g hg)]
      · rfl
    rw [List.map_congr_left heach]
    simp
  · intro g _ it _ hmi
    simp [provenanceOf, hmi]

/-- Witness for C3: two dissimilar records (similarity 1/5) pass through
the merge unchanged, and a pass-through record's provenance is its own
identity. -/
theorem claim_C3_witness :
    resolveDuplicates [("text", [itTextA, itNum])] = [("text", [itTextA, itNum])] ∧
    provenanceOf itTextA = ["a.txt"] := by
  have h := claim_C3_dedup_idempotent [("text", [itTextA, itNum])]
    (by with_unfolding_all decide)
  exact ⟨h.1, h.2 ("text", [itTextA, itNum]) (by simp) itTextA (by simp) rfl⟩

/-! ## Lemmas about the similarity scorer -/

theorem clamp01_nonneg (x : ℚ) : 0 ≤ clamp01 x := by
  unfold clamp01
  split_ifs with h1 h2
  · exact le_refl 0
  · exact zero_le_one
  · exact not_lt.mp h1

theorem clamp01_le_one (x : ℚ) : clamp01 x ≤ 1 := by
  unfold clamp01
  split_ifs with h1 h2
  · exact zero_le_one
  · exact le_refl 1
  · exact not_lt.mp h2

theorem calcStructural_eq_spec (a b : String) :
    calcStructuralSimilarity (tokenizeCode a) (tokenizeCode b) = specStructuralSimilarity a b := by
  simp only [calcStructuralSimilarity, specStructuralSimilarity]
  by_cases h : tokenizeCode a = [] ∨ tokenizeCode b = []
  · rw [if_pos h, if_pos (by simpa [List.toFinset_eq_empty_iff] using h)]
  · have h' : ¬ ((tokenizeCode a).toFinset = ∅ ∨ (tokenizeCode b).toFinset = ∅) := by
      simpa [List.toFinset_eq_empty_iff] using h
    rw [if_neg h, if_neg h']
    push_neg at h
    have hpos : 0 < ((tokenizeCode a).toFinset ∪ (tokenizeCode b).toFinset).card := by
      rw [Finset.card_pos]
      obtain ⟨x, hx⟩ := List.exists_mem_of_ne_nil _ h.1
      exact ⟨x, Finset.mem_union_left _ (List.mem_toFinset.mpr hx)⟩
    rw [if_pos hpos]

theorem calcSemantic_eq_spec (a b : String) :
    calcSemanticSimilarity a b = specSemanticSimilarity a b := by
  simp only [calcSemanticSimilarity, specSemanticSimilarity]
  by_cases h : extractFuncNames a = [] ∨ extractFuncNames b = []
  · rw [if_neg (by tauto), if_pos h]
  · push_neg at h
    rw [if_pos h, if_neg (by tauto)]

/-- C2: `score(a, b)` is the weighted combination `0.4 * structural +
0.4 * semantic + 0.2 * syntactic` clamped to `[0, 1]`, where structural
is the Jaccard similarity of the stripped lower-cased token sets (0 on
an empty side), semantic is the function-name overlap ratio defaulting
to `1/2` when identifiers are missing on either side, and syntactic is
the order-sensitive sequence ratio over the token sequences. -/
theorem claim_C2_similarity_formula (a b : String) :
    calculateSimilarity a b =
      min 1 (max 0 ((4/10) * specStructuralSimilarity a b +
        (4/10) * specSemanticSimilarity a b +
        (2/10) * calcSyntacticSimilarity (tokenizeCode a) (tokenizeCode b))) ∧
    0 ≤ calculateSimilarity a b ∧ calculateSimilarity a b ≤ 1 := by
  have hmain : calculateSimilarity a b =
      clamp01 ((4/10) * specStructuralSimilarity a b + (4/10) * specSemanticSimilarity a b +
        (2/10) * calcSyntacticSimilarity (tokenizeCode a) (tokenizeCode b)) := by
    simp only [calculateSimilarity]
    rw [calcStructural_eq_spec, calcSemantic_eq_spec]
    exact congrArg clamp01 (by ring)
  refine ⟨?_, ?_, ?_⟩
  · rw [hmain, clamp01_eq_min_max]
  · rw [hmain]
    exact clamp01_nonneg _
  · rw [hmain]
    exact clamp01_le_one _

/-! ## The sequence-matcher ratio of a sequence with itself -/

theorem commonPrefixLen_le_left (a b : List String) :
    commonPrefixLen a b ≤ a.length := by
  induction a generalizing b with
  | nil => cases b <;> simp [commonPrefixLen]
  | cons x xs ih =>
    cases b with
    | nil => simp [commonPrefixLen]
    | cons y ys =>
      simp only [commonPrefixLen]
      split
      · simpa using ih ys
      · simp

theorem commonPrefixLen_self (a : List String) : commonPrefixLen a a = a.length := by
  induction a with
  | nil => simp [commonPrefixLen]
  | cons x xs ih => simp [commonPrefixLen, ih]

theorem foldl_flmStep_no_update (a b : List String) (l : List (ℕ × ℕ)) (acc : ℕ × ℕ × ℕ)
    (hbound : ∀ ij : ℕ × ℕ, commonPrefixLen (a.drop ij.1) (b.drop ij.2) ≤ acc.2.2) :
    l.foldl (flmStep a b) acc = acc := by
  induction l with
  | nil => rfl
  | cons x xs ih =>
    rw [List.foldl_cons]
    have hstep : flmStep a b acc x = acc := by
      unfold flmStep
      rw [if_neg (not_lt.mpr (hbound x))]
    rw [hstep]
    exact ih

theorem findLongestMatch_self (t : List String) (ht : t ≠ []) :
    findLongestMatch t t = (0, 0, t.length) := by
  obtain ⟨x, xs, rfl⟩ := List.exists_cons_of_ne_nil ht
  unfold findLongestMatch
  have hcands : matchCandidates (x :: xs).length (x :: xs).length =
      (0, 0) :: (((List.range xs.length).map Nat.succ).map (fun j => ((0 : ℕ), j)) ++
        ((List.range xs.length).map Nat.succ).flatMap
          (fun i => (List.range (x :: xs).length).map (fun j => (i, j)))) := by
    unfold matchCandidates
    conv_lhs => rw [List.length_cons, List.range_succ_eq_map]
    rw [List.flatMap_cons]
    rw [List.length_cons, List.range_succ_eq_map]
    simp only [List.map_cons, List.cons_append]
  rw [hcands, List.foldl_cons]
  have hstep : flmStep (x :: xs) (x :: xs) (0, 0, 0) (0, 0) = (0, 0, (x :: xs).length) := by
    unfold flmStep
    simp [commonPrefixLen_self]
  rw [hstep]
  apply foldl_flmStep_no_update
  intro ij
  calc commonPrefixLen ((x :: xs).drop ij.1) ((x :: xs).drop ij.2)
      ≤ ((x :: xs).drop ij.1).length := commonPrefixLen_le_left _ _
    _ ≤ (x :: xs).length := by simp [List.length_drop]

theorem matchTotal_nil (fuel : ℕ) : matchTotal fuel [] [] = 0 := by
  cases fuel with
  | zero => rfl
  | succ n => simp [matchTotal, findLongestMatch, matchCandidates]

theorem sequenceMatcherRatio_self (t : List String) : sequenceMatcherRatio t t = 1 := by
  cases t with
  | nil => rfl
  | cons x xs =>
    unfold sequenceMatcherRatio
    have hlen : (x :: xs).length + (x :: xs).length ≠ 0 := by simp
    rw [if_neg hlen]
    have hfuel : (x :: xs).length + (x :: xs).length = (xs.length + xs.length + 1) + 1 := by
      simp only [List.length_cons]
      omega
    have htot : matchTotal ((x :: xs).length + (x :: xs).length) (x :: xs) (x :: xs) =
        (x :: xs).length := by
      rw [hfuel, matchTotal, findLongestMatch_self (x :: xs) (by simp)]
      simp [matchTotal_nil]
    rw [htot]
    have hpos : ((x :: xs).length : ℚ) + ((x :: xs).length : ℚ) ≠ 0 := by
      have : (0 : ℚ) < ((x :: xs).length : ℚ) := by
        exact_mod_cast Nat.pos_of_ne_zero (by simp)
      linarith
    push_cast
    field_simp
    ring

/-- C10: two byte-identical texts with a non-empty token set and no
`def`/`function` identifiers score exactly `0.8`
(`0.4*1 + 0.4*0.5 + 0.2*1`), which does not exceed the `0.85`
threshold, so the merge never collapses such exact duplicates. -/
theorem claim_C10_identical_non_identifier (content : String) (items : List Item)
    (htok : tokenizeCode content ≠ [])
    (hnames : extractFuncNames content = [])
    (hsame : ∀ it ∈ items, it.content = content) :
    calculateSimilarity content content = 4/5 ∧
    ¬ (85/100 : ℚ) < calculateSimilarity content content ∧
    resolveGroup calculateSimilarity (85/100) items = items := by
  have hscore : calculateSimilarity content content = 4/5 := by
    have h1 : calcStructuralSimilarity (tokenizeCode content) (tokenizeCode content) = 1 := by
      simp only [calcStructuralSimilarity]
      rw [if_neg (by simp [htok])]
      simp only [Finset.inter_self, Finset.union_self]
      have hpos : 0 < (tokenizeCode content).toFinset.card := by
        rw [Finset.card_pos]
        obtain ⟨x, hx⟩ := List.exists_mem_of_ne_nil _ htok
        exact ⟨x, List.mem_toFinset.mpr hx⟩
      rw [if_pos hpos]
      rw [div_self (by exact_mod_cast hpos.ne')]
    have h2 : calcSemanticSimilarity content content = 1/2 := by
      simp only [calcSemanticSimilarity]
      rw [if_neg (by simp [hnames])]
    have h3 : calcSyntacticSimilarity (tokenizeCode content) (tokenizeCode content) = 1 := by
      simp only [calcSyntacticSimilarity]
      rw [if_neg (by simp [htok]), sequenceMatcherRatio_self]
    simp only [calculateSimilarity, h1, h2, h3]
    unfold clamp01
    norm_num
  refine ⟨hscore, by rw [hscore]; norm_num, ?_⟩
  apply resolveGroup_of_pairwise_not_similar
  have hgen : ∀ (l : List Item), (∀ it ∈ l, it.content = content) →
      l.Pairwise (fun x y => ¬ (85/100 : ℚ) < calculateSimilarity x.content y.content) := by
    intro l
    induction l with
    | nil => intro _; exact List.Pairwise.nil
    | cons x xs ih =>
      intro hall
      refine List.Pairwise.cons ?_ (ih (fun it hit => hall it (List.mem_cons_of_mem _ hit)))
      intro y hy
      rw [hall x (List.mem_cons_self _ _), hall y (List.mem_cons_of_mem _ hy), hscore]
      norm_num
  exact hgen items hsame

/-- Witness for C10: `"hello world"` under two identities scores `0.8`
with itself and survives the merge uncollapsed. -/
theorem claim_C10_witness :
    calculateSimilarity "hello world" "hello world" = 4/5 ∧
    ¬ (85/100 : ℚ) < calculateSimilarity "hello world" "hello world" ∧
    resolveGroup calculateSimilarity (85/100) [itTextA, itTextB] = [itTextA, itTextB] :=
  claim_C10_identical_non_identifier "hello world" [itTextA, itTextB]
    (by with_unfolding_all decide) (by with_unfolding_all decide)
    (by with_unfolding_all decide)

/-! ## Confidence roll-up (claim C7) -/

/-- Mean of a nonempty list of values in `[0, 1]` stays in `[0, 1]`. -/
theorem sum_div_length_mem_unit (scores : List ℚ) (hne : scores ≠ [])
    (hb : ∀ c ∈ scores, 0 ≤ c ∧ c ≤ 1) :
    0 ≤ scores.sum / (scores.length : ℚ) ∧ scores.sum / (scores.length : ℚ) ≤ 1 := by
  have hlen : 0 < (scores.length : ℚ) := by
    exact_mod_cast List.length_pos.mpr hne
  constructor
  · apply div_nonneg _ hlen.le
    exact List.sum_nonneg (fun x hx => (hb x hx).1)
  · rw [div_le_one hlen]
    calc scores.sum ≤ scores.length • (1 : ℚ) :=
          List.sum_le_card_nsmul scores 1 (fun x hx => (hb x hx).2)
      _ = (scores.length : ℚ) := by simp

/-- C7: `_calculate_confidence` and `_calculate_enhancement_confidence`
return the arithmetic mean of the `confidence` values carried by the
given results and `0.0` when none carries one; whenever every carried
confidence lies in `[0, 1]`, so does the aggregate. -/
theorem claim_C7_confidence_mean (analyses : List Analysis) (enhancements : List Enhancement) :
    (analyses.filterMap (·.confidence) = [] → calculateConfidence analyses = 0) ∧
    (analyses.filterMap (·.confidence) ≠ [] →
      calculateConfidence analyses =
        (analyses.filterMap (·.confidence)).sum /
          ((analyses.filterMap (·.confidence)).length : ℚ)) ∧
    ((∀ c ∈ analyses.filterMap (·.confidence), 0 ≤ c ∧ c ≤ 1) →
      0 ≤ calculateConfidence analyses ∧ calculateConfidence analyses ≤ 1) ∧
    (enhancements.filterMap (·.confidence) = [] →
      calculateEnhancementConfidence enhancements = 0) ∧
    (enhancements.filterMap (·.confidence) ≠ [] →
      calculateEnhancementConfidence enhancements =
        (enhancements.filterMap (·.confidence)).sum /
          ((enhancements.filterMap (·.confidence)).length : ℚ)) ∧
    ((∀ c ∈ enhancements.filterMap (·.confidence), 0 ≤ c ∧ c ≤ 1) →
      0 ≤ calculateEnhancementConfidence enhancements ∧
        calculateEnhancementConfidence enhancements ≤ 1) := by
  refine ⟨?_, ?_, ?_, ?_, ?_, ?_⟩
  · intro h
    simp [calculateConfidence, h]
  · intro h
    simp only [calculateConfidence]
    rw [if_neg (by simpa [List.isEmpty_iff] using h)]
  · intro hb
    by_cases h : analyses.filterMap (·.confidence) = []
    · simp [calculateConfidence, h]
    · simp only [calculateConfidence]
      rw [if_neg (by simpa [List.isEmpty_iff] using h)]
      exact sum_div_length_mem_unit _ h hb
  · intro h
    simp [calculateEnhancementConfidence, h]
  · intro h
    simp only [calculateEnhancementConfidence]
    rw [if_neg (by simpa [List.isEmpty_iff] using h)]
  · intro hb
    by_cases h : enhancements.filterMap (·.confidence) = []
    · simp [calculateEnhancementConfidence, h]
    · simp only [calculateEnhancementConfidence]
      rw [if_neg (by simpa [List.isEmpty_iff] using h)]
      exact sum_div_length_mem_unit _ h hb

/-- Witness for C7: three analyses, one without a confidence entry, give
mean `3/4`; an empty enhancement list aggregates to `0`. -/
theorem claim_C7_witness :
    calculateConfidence
      [{ confidence := some (1/2) }, { confidence := none }, { confidence := some 1 }] =
      ([(1 : ℚ)/2, 1].sum / (([(1 : ℚ)/2, 1].length : ℚ))) ∧
    (0 ≤ calculateConfidence
      [{ confidence := some (1/2) }, { confidence := none }, { confidence := some 1 }] ∧
      calculateConfidence
        [{ confidence := some (1/2) }, { confidence := none }, { confidence := some 1 }] ≤ 1) ∧
    calculateEnhancementConfidence [] = 0 := by
  have h := claim_C7_confidence_mean
    [{ confidence := some (1/2) }, { confidence := none }, { confidence := some 1 }] []
  exact ⟨h.2.1 (by with_unfolding_all decide),
    h.2.2.1 (by with_unfolding_all decide), h.2.2.2.1 rfl⟩

/-! ## Mode dispatch (claims C5, C6, C9) -/

/-- C5: dispatching an unregistered mode name returns a failed result
whose error identifies the unknown mode, consults no handler (every
registry without that name yields the identical result), and a
multi-mode batch is the positional map of independent single dispatches,
so an unregistered name does not affect the other requested modes. -/
theorem claim_C5_unknown_mode (mgr : ModeManagerState) (clock : ℕ → ℚ) (modeName : String)
    (ctx : ModeContext) (h : mgr.modeHandlers.lookup modeName = none) :
    (executeMode mgr clock modeName ctx).success = false ∧
    (executeMode mgr clock modeName ctx).error = some ("Unknown mode: " ++ modeName) ∧
    (∀ mgr' : ModeManagerState, mgr'.modeHandlers.lookup modeName = none →
      executeMode mgr' clock modeName ctx = executeMode mgr clock modeName ctx) ∧
    ∀ modeNames : List String,
      executeMultipleModes mgr clock modeNames ctx =
        modeNames.map (fun n => executeMode mgr clock n ctx) := by
  refine ⟨?_, ?_, ?_, ?_⟩
  · simp [executeMode, h]
  · simp [executeMode, h]
  · intro mgr' h'
    simp [executeMode, h, h']
  · intro modeNames
    rfl

/-- Witness for C5: dispatching `"nonexistent_mode"` against a registry
holding only `"merge_only"` fails with the unknown-mode error. -/
theorem claim_C5_witness :
    (executeMode mgrEnabled clockLin "nonexistent_mode" ctxEmpty).success = false ∧
    (executeMode mgrEnabled clockLin "nonexistent_mode" ctxEmpty).error =
      some ("Unknown mode: " ++ "nonexistent_mode") := by
  have h := claim_C5_unknown_mode mgrEnabled clockLin "nonexistent_mode" ctxEmpty
    (by with_unfolding_all rfl)
  exact ⟨h.1, h.2.1⟩

/-- C6: dispatching a registered mode whose configuration disables it
returns the disabled failure result without invoking the handler: the
result does not depend on which handler is registered. -/
theorem claim_C6_disabled_mode (mgr : ModeManagerState) (clock : ℕ → ℚ) (modeName : String)
    (ctx : ModeContext) (handler : ModeContext → Except String ModeData)
    (hreg : mgr.modeHandlers.lookup modeName = some handler)
    (hdis : enabledFor mgr modeName = false) :
    executeMode mgr clock modeName ctx =
      { modeName := modeName, success := false, data := none,
        error := some ("Mode " ++ modeName ++ " is disabled"),
        executionTime := 0,
        metadata := { status := "disabled", executionTime := none } } ∧
    ∀ (mgr' : ModeManagerState) (handler' : ModeContext → Except String ModeData),
      mgr'.modesConfig = mgr.modesConfig →
      mgr'.modeHandlers.lookup modeName = some handler' →
      executeMode mgr' clock modeName ctx = executeMode mgr clock modeName ctx := by
  have hres : ∀ (m : ModeManagerState) (hd : ModeContext → Except String ModeData),
      m.modeHandlers.lookup modeName = some hd → enabledFor m modeName = false →
      executeMode m clock modeName ctx =
        { modeName := modeName, success := false, data := none,
          error := some ("Mode " ++ modeName ++ " is disabled"),
          executionTime := 0,
          metadata := { status := "disabled", executionTime := none } } := by
    intro m hd hr hd2
    simp [executeMode, hr, hd2]
  refine ⟨hres mgr handler hreg hdis, ?_⟩
  intro mgr' handler' hcfg hreg'
  have hdis' : enabledFor mgr' modeName = false := by
    unfold enabledFor
    rw [hcfg]
    exact hdis
  rw [hres mgr' handler' hreg' hdis', hres mgr handler hreg hdis]

/-- Witness for C6: the disabled `"merge_only"` mode yields exactly the
disabled failure result. -/
theorem claim_C6_witness :
    executeMode mgrDisabled clockLin "merge_only" ctxEmpty =
      { modeName := "merge_only", success := false, data := none,
        error := some ("Mode " ++ "merge_only" ++ " is disabled"),
        executionTime := 0,
        metadata := { status := "disabled", executionTime := none } } :=
  (claim_C6_disabled_mode mgrDisabled clockLin "merge_only" ctxEmpty okHandler
    (by with_unfolding_all rfl) (by with_unfolding_all rfl)).1

/-- Counterexample to C9: on the disabled path the dispatch takes one
(modelled) clock unit, but the returned `execution_time` is the literal
`0` rather than the measured elapsed time — so the result does not
reflect the actual elapsed time on every result path. -/
theorem claim_C9_counterexample :
    (executeMode mgrDisabled clockLin "merge_only" ctxEmpty).executionTime ≠
      clockLin 1 - clockLin 0 := by
  with_unfolding_all decide

/-- C9 amended: the dispatch measures `execution_time` from entry to
handler return or exception capture on the unknown-mode, success and
handler-failure paths, but the disabled short-circuit returns
`execution_time = 0` without measuring. -/
theorem claim_C9_amended_timing (mgr : ModeManagerState) (clock : ℕ → ℚ) (modeName : String)
    (ctx : ModeContext) :
    (mgr.modeHandlers.lookup modeName = none →
      (executeMode mgr clock modeName ctx).executionTime = clock 1 - clock 0) ∧
    ∀ handler, mgr.modeHandlers.lookup modeName = some handler →
      (enabledFor mgr modeName = true →
        (executeMode mgr clock modeName ctx).executionTime = clock 1 - clock 0) ∧
      (enabledFor mgr modeName = false →
        (executeMode mgr clock modeName ctx).executionTime = 0) := by
  constructor
  · intro h
    simp [executeMode, h]
  · intro handler h
    constructor
    · intro hen
      cases hres : handler ctx with
      | ok d => simp [executeMode, h, hen, hres]
      | error e => simp [executeMode, h, hen, hres]
    · intro hdis
      simp [executeMode, h, hdis]

/-- Witness for the amended C9: an enabled dispatch reports the measured
elapsed time, a disabled dispatch reports `0`. -/
theorem claim_C9_amended_witness :
    (executeMode mgrEnabled clockLin "merge_only" ctxEmpty).executionTime =
      clockLin 1 - clockLin 0 ∧
    (executeMode mgrDisabled clockLin "merge_only" ctxEmpty).executionTime = 0 :=
  ⟨((claim_C9_amended_timing mgrEnabled clockLin "merge_only" ctxEmpty).2 okHandler
      (by with_unfolding_all rfl)).1 (by with_unfolding_all rfl),
    ((claim_C9_amended_timing mgrDisabled clockLin "merge_only" ctxEmpty).2 okHandler
      (by with_unfolding_all rfl)).2 (by with_unfolding_all rfl)⟩

/-! ## Configurability of threshold and weights (claim C8) -/

/-- Counterexample to C8: two byte-identical records score `4/5`; a
configuration with duplication threshold `1/2` should make the merge
collapse them, but the code's merge ignores the configured value and
leaves them unmerged. -/
theorem claim_C8_counterexample :
    resolveDuplicatesCfg { duplicationThreshold := 1/2 }
      [("text", [itTextA, itTextB])] = [("text", [itTextA, itTextB])] ∧
    specConfiguredResolve { duplicationThreshold := 1/2 }
      [("text", [itTextA, itTextB])] ≠ [("text", [itTextA, itTextB])] := by
  with_unfolding_all decide

/-- C8 amended: the duplication threshold and the similarity weights are
hardwired literals (`0.85`, `0.4/0.4/0.2`): the merge's behaviour is
independent of the supplied configuration and always equals the
spec-configured merge at the default configuration, and the similarity
score always equals the weighted form at the default weights. -/
theorem claim_C8_amended_hardwired (cfg cfg' : SimilarityConfig)
    (combinedCode : List (String × List Item)) (content1 content2 : String) :
    resolveDuplicatesCfg cfg combinedCode = resolveDuplicatesCfg cfg' combinedCode ∧
    resolveDuplicatesCfg cfg combinedCode =
      specConfiguredResolve {} combinedCode ∧
    calculateSimilarity content1 content2 =
      specSimilarityWeighted {} content1 content2 := by
  have hsim : specSimilarityWeighted ({} : SimilarityConfig) = calculateSimilarity := by
    funext c1 c2
    simp only [specSimilarityWeighted, calculateSimilarity]
  refine ⟨rfl, ?_, by rw [hsim]⟩
  unfold resolveDuplicatesCfg resolveDuplicates specConfiguredResolve
  rw [hsim]

/-! ## Stage isolation in the analysis phase (claim C4) -/

/-- Binding a successful `Except` value just applies the continuation. -/
theorem exceptOk_bind {ε α β : Type} (a : α) (f : α → Except ε β) :
    (Except.ok a : Except ε α) >>= f = f a := rfl

/-- On records without a prior `error` key, `analyze_content` is the
per-record map of `analyzeItem`. -/
theorem analyzeContent_of_no_error (fSyn fLog fCtx fSec : RecordData → Except String Analysis)
    (merged : List (String × RecordData))
    (hclean : ∀ kd ∈ merged, kd.2.error = none) :
    analyzeContent fSyn fLog fCtx fSec merged =
      merged.map (fun kd => (kd.1, analyzeItem fSyn fLog fCtx fSec kd.2)) := by
  induction merged with
  | nil => rfl
  | cons kd rest ih =>
    have h0 : kd.2.error = none := hclean kd (List.mem_cons_self _ _)
    simp only [analyzeContent, List.filterMap_cons, h0, Option.isSome_none, Bool.false_eq_true,
      if_false, List.map_cons]
    rw [← analyzeContent]
    rw [ih (fun x hx => hclean x (List.mem_cons_of_mem _ hx))]

/-- C4: when the evaluator raises on exactly one record of the analysis
batch, the stage still produces one entry per record — the failing
record's entry is the error annotation, every other record's entry is
the ordinary analysis result wired from its evaluators' outputs — and a
pipeline run whose collaborator stages succeed still finishes with
`pipeline_status = "completed"` carrying those analysis results. -/
theorem claim_C4_stage_isolation {α β γ δ ε ζ : Type}
    (stages : OtherStages α β γ δ ε ζ)
    (fSyn fLog fCtx fSec : RecordData → Except String Analysis)
    (inputs exportFormats : List String)
    (processed : List (String × RecordData))
    (pre post : List (String × RecordData)) (failKey : String) (failData : RecordData)
    (e : String)
    (enhanced : α) (ui : β) (optimized : γ) (security : δ) (validation : ε) (exported : ζ)
    (hclean : ∀ kd ∈ pre ++ (failKey, failData) :: post, kd.2.error = none)
    (hfail : analyzeItem fSyn fLog fCtx fSec failData = AnalysisEntry.err e)
    (hproc : stages.processInputs inputs = Except.ok processed)
    (hmerge : stages.mergeAndCombine processed =
      Except.ok (pre ++ (failKey, failData) :: post))
    (henh : stages.enhanceContent
      (analyzeContent fSyn fLog fCtx fSec (pre ++ (failKey, failData) :: post)) =
        Except.ok enhanced)
    (hui : stages.generateMockups enhanced
      (analyzeContent fSyn fLog fCtx fSec (pre ++ (failKey, failData) :: post)) =
        Except.ok ui)
    (hopt : stages.optimizePerformance enhanced = Except.ok optimized)
    (hsec : stages.analyzeSecurity optimized = Except.ok security)
    (hval : stages.validateResults processed
      (analyzeContent fSyn fLog fCtx fSec (pre ++ (failKey, failData) :: post))
      enhanced ui optimized security = Except.ok validation)
    (hexp : stages.exportResults optimized exportFormats = Except.ok exported) :
    analyzeContent fSyn fLog fCtx fSec (pre ++ (failKey, failData) :: post) =
      pre.map (fun kd => (kd.1, analyzeItem fSyn fLog fCtx fSec kd.2)) ++
        (failKey, AnalysisEntry.err e) ::
          post.map (fun kd => (kd.1, analyzeItem fSyn fLog fCtx fSec kd.2)) ∧
    (∀ kd, kd ∈ pre ++ post → ∀ a1 a2 a3 a4,
      fSyn kd.2 = Except.ok a1 → fLog kd.2 = Except.ok a2 →
      fCtx kd.2 = Except.ok a3 → fSec kd.2 = Except.ok a4 →
      analyzeItem fSyn fLog fCtx fSec kd.2 =
        AnalysisEntry.ok a1 a2 a3 a4 (calculateConfidence [a1, a2, a3])) ∧
    (runFullPipeline stages fSyn fLog fCtx fSec inputs exportFormats).pipelineStatus =
      "completed" ∧
    (runFullPipeline stages fSyn fLog fCtx fSec inputs exportFormats).finalResults =
      some { processedData := processed
             mergedContent := pre ++ (failKey, failData) :: post
             analysisResults :=
               analyzeContent fSyn fLog fCtx fSec (pre ++ (failKey, failData) :: post)
             enhancedContent := enhanced
             uiResults := ui
             optimizedContent := optimized
             securityResults := security
             validationResults := validation
             exportedResults := exported } := by
  have hrun : runFullPipeline stages fSyn fLog fCtx fSec inputs exportFormats =
      { pipelineStatus := "completed"
        finalResults :=
          some { processedData := processed
                 mergedContent := pre ++ (failKey, failData) :: post
                 analysisResults :=
                   analyzeContent fSyn fLog fCtx fSec (pre ++ (failKey, failData) :: post)
                 enhancedContent := enhanced
                 uiResults := ui
                 optimizedContent := optimized
                 securityResults := security
                 validationResults := validation
                 exportedResults := exported }
        error := none } := by
    unfold runFullPipeline
    simp only [hproc, hmerge, henh, hui, hopt, hsec, hval, hexp, exceptOk_bind]
    rfl
  refine ⟨?_, ?_, ?_, ?_⟩
  · rw [analyzeContent_of_no_error _ _ _ _ _ hclean, List.map_append, List.map_cons, hfail]
  · intro kd _ a1 a2 a3 a4 h1 h2 h3 h4
    simp only [analyzeItem, h1, h2, h3, h4, exceptOk_bind]
    rfl
  · rw [hrun]
  · rw [hrun]

/-- Witness for C4: in a three-record batch whose middle record makes
the analyzer raise, the other two records still get analysis entries,
the failing record's entry is the error annotation, and the pipeline
completes. -/
theorem claim_C4_witness :
    (runFullPipeline stagesOkUnit fSynW fOkW fOkW fOkW ["in.py"] ["markdown"]).pipelineStatus =
      "completed" ∧
    analyzeContent fSynW fOkW fOkW fOkW
      [("good1", { content := "x = 1" }), ("bad", { content := "oops" }),
        ("good2", { content := "y = 2" })] =
      [("good1", analyzeItem fSynW fOkW fOkW fOkW { content := "x = 1" }),
        ("bad", AnalysisEntry.err "boom"),
        ("good2", analyzeItem fSynW fOkW fOkW fOkW { content := "y = 2" })] := by
  have h := claim_C4_stage_isolation stagesOkUnit fSynW fOkW fOkW fOkW ["in.py"] ["markdown"]
    [] [("good1", { content := "x = 1" })] [("good2", { content := "y = 2" })]
    "bad" { content := "oops" } "boom" () () () () () ()
    (by with_unfolding_all decide)
    (by with_unfolding_all decide)
    rfl rfl rfl rfl rfl rfl rfl rfl
  refine ⟨h.2.2.1, ?_⟩
  simpa using h.1

end DuckyCoder
